import Mathlib

/-!
Verification of the transaction-signing and instruction-assembly routines of
the jup-rust-sdk repository, together with its HTTP response handling and
client construction.

The development shallowly embeds the Rust code:

- bytes are `Fin 256`;
- the base64 standard alphabet codec (the `base64` crate's `STANDARD` engine,
  padded, canonical) and the base58 decoder (the `bs58` crate) are implemented
  concretely;
- Solana's compact-u16 length encoding used for the signature vector of a
  `VersionedTransaction` is implemented concretely;
- the serialization of the `VersionedMessage` body and the ed25519 signature
  scheme are external collaborators (solana-sdk / ed25519-dalek) and are
  modelled as parameters (`MsgCodec`, `Ed25519`) carrying exactly the library
  facts the code relies on;
- Rust panics (`expect` / `unwrap`) are modelled as values of explicit panic
  types carried in `Except`: an `Except.error` of a panic type means the Rust
  call aborts the process, not that an error value is returned to the caller.
-/

set_option maxHeartbeats 1000000
set_option maxRecDepth 100000

/-- A byte of the wire formats. -/
abbrev Byte := Fin 256

/-- Truncating byte constructor (Rust `as u8` style narrowing). -/
def byte (n : Nat) : Byte := ⟨n % 256, Nat.mod_lt _ (by omega)⟩

/-- The standard base64 alphabet, as used by `base64::engine::general_purpose::STANDARD`. -/
def b64Chars : List Char :=
  "ABCDEFGHIJKLMNOPQRSTUVWXYZabcdefghijklmnopqrstuvwxyz0123456789+/".toList

/-- Character of a 6-bit value. -/
def encB64 (v : Nat) : Char := b64Chars.getD v 'A'

/-- 6-bit value of a character, `none` for characters outside the alphabet. -/
def decB64 (c : Char) : Option Nat := b64Chars.findIdx? (· == c)

/-- Base64 encoding of a byte list, chunked in threes with `=` padding,
mirroring `STANDARD.encode`. -/
def b64EncodeChunks : List Byte → List Char
  | a :: b :: c :: rest =>
    encB64 (a.val / 4) :: encB64 (a.val % 4 * 16 + b.val / 16) ::
      encB64 (b.val % 16 * 4 + c.val / 64) :: encB64 (c.val % 64) :: b64EncodeChunks rest
  | [a, b] =>
    [encB64 (a.val / 4), encB64 (a.val % 4 * 16 + b.val / 16), encB64 (b.val % 16 * 4), '=']
  | [a] => [encB64 (a.val / 4), encB64 (a.val % 4 * 16), '=', '=']
  | [] => []

/-- Model of `STANDARD.encode`. -/
def b64Encode (l : List Byte) : String := String.mk (b64EncodeChunks l)

/-- Base64 decoding, strict: requires canonical padding and zero trailing bits,
mirroring `STANDARD.decode` (which rejects invalid length, invalid characters,
misplaced padding and non-zero trailing bits). -/
def b64DecodeChunks : List Char → Option (List Byte)
  | c1 :: c2 :: c3 :: c4 :: rest =>
    match decB64 c1, decB64 c2 with
    | some v1, some v2 =>
      if c3 = '=' then
        if c4 = '=' ∧ rest = [] ∧ v2 % 16 = 0 then
          some [byte (v1 * 4 + v2 / 16)]
        else none
      else
        match decB64 c3 with
        | some v3 =>
          if c4 = '=' then
            if rest = [] ∧ v3 % 4 = 0 then
              some [byte (v1 * 4 + v2 / 16), byte (v2 % 16 * 16 + v3 / 4)]
            else none
          else
            match decB64 c4 with
            | some v4 =>
              match b64DecodeChunks rest with
              | some bs =>
                some (byte (v1 * 4 + v2 / 16) :: byte (v2 % 16 * 16 + v3 / 4) ::
                  byte (v3 % 4 * 64 + v4) :: bs)
              | none => none
            | none => none
        | none => none
    | _, _ => none
  | [] => some ([] : List Byte)
  | _ => none

/-- Model of `STANDARD.decode`. -/
def b64Decode (s : String) : Option (List Byte) := b64DecodeChunks s.toList

/-- The base58 alphabet of the `bs58` crate. -/
def b58Chars : List Char :=
  "123456789ABCDEFGHJKLMNPQRSTUVWXYZabcdefghijkmnopqrstuvwxyz".toList

/-- Digit value of a base58 character, `none` for characters outside the alphabet. -/
def b58Digit (c : Char) : Option Nat := b58Chars.findIdx? (· == c)

/-- Big-endian accumulation of the base58 digits; `none` on the first invalid
character, as `bs58::decode(...).into_vec()` fails there. -/
def b58Value : List Char → Nat → Option Nat
  | [], acc => some acc
  | c :: cs, acc =>
    match b58Digit c with
    | none => none
    | some d => b58Value cs (acc * 58 + d)

/-- Big-endian bytes of a natural number, fuelled (the fuel argument only bounds
the recursion; `natToBytesBE` supplies enough fuel for any input). -/
def natToBytesBEAux : Nat → Nat → List Byte
  | 0, _ => []
  | fuel + 1, n => if n = 0 then [] else natToBytesBEAux fuel (n / 256) ++ [byte (n % 256)]

/-- Big-endian bytes of a natural number, empty for zero. -/
def natToBytesBE (n : Nat) : List Byte := natToBytesBEAux n n

/-- Model of `bs58::decode(s).into_vec()`: leading `1` characters become leading zero
bytes, the remaining digits are read as a big-endian base58 number. -/
def b58Decode (s : String) : Option (List Byte) :=
  match b58Value s.toList 0 with
  | none => none
  | some v =>
    some (List.replicate (s.toList.takeWhile (· == '1')).length (byte 0) ++ natToBytesBE v)

/-- Model of `Pubkey::from_str`: at most 44 characters of base58 decoding to exactly
32 bytes; `none` mirrors `ParsePubkeyError`. -/
def parsePubkey (s : String) : Option (List Byte) :=
  if 44 < s.length then none
  else
    match b58Decode s with
    | none => none
    | some bs => if bs.length = 32 then some bs else none

/-- Solana's compact-u16 encoding (`short_vec::ShortU16` serialization), the
7-bit little-endian varint used for the signature-vector length, unrolled for
values that fit in a `u16`. -/
def encodeShortU16 (n : Nat) : List Byte :=
  if n < 128 then [byte n]
  else if n < 16384 then [byte (n % 128 + 128), byte (n / 128)]
  else [byte (n % 128 + 128), byte (n / 128 % 128 + 128), byte (n / 16384)]

/-- Solana's compact-u16 decoding (`short_vec::decode_shortu16_len`): at most
three bytes, rejecting aliased (non-canonical) encodings, continuation on the
third byte, and values above `u16::MAX`. -/
def decodeShortU16 : List Byte → Option (Nat × List Byte)
  | [] => none
  | b0 :: rest =>
    if b0.val < 128 then some (b0.val, rest)
    else
      match rest with
      | [] => none
      | b1 :: rest1 =>
        if b1.val = 0 then none
        else if b1.val < 128 then some (b0.val % 128 + b1.val * 128, rest1)
        else
          match rest1 with
          | [] => none
          | b2 :: rest2 =>
            if b2.val = 0 ∨ 3 < b2.val then none
            else some (b0.val % 128 + b1.val % 128 * 128 + b2.val * 16384, rest2)

/-- Concatenation of the 64-byte signature entries, as bincode lays the
signature vector out after its compact-u16 length. -/
def sigBytes : List (List Byte) → List Byte
  | [] => []
  | s :: rest => s ++ sigBytes rest

/-- Read `n` signatures of 64 bytes each, mirroring bincode's deserialization
of the `short_vec`-encoded `Vec<Signature>`. -/
def readSigs : Nat → List Byte → Option (List (List Byte) × List Byte)
  | 0, bs => some ([], bs)
  | n + 1, bs =>
    if 64 ≤ bs.length then
      match readSigs n (bs.drop 64) with
      | some (sigs, rest) => some (bs.take 64 :: sigs, rest)
      | none => none
    else none

/-- The serialization of the `VersionedMessage` body is a solana-sdk
collaborator; the signer treats it as an opaque codec. `parse` consumes the
message from a byte stream and returns the unread remainder; the two laws are
the bincode round-trip facts of that format (its deserializer rejects
non-canonical encodings, so parsing is the left and right inverse of
serialization on the consumed bytes). -/
structure MsgCodec (Msg : Type) where
  ser : Msg → List Byte
  parse : List Byte → Option (Msg × List Byte)
  parse_ser : ∀ (m : Msg) (rest : List Byte), parse (ser m ++ rest) = some (m, rest)
  ser_parse : ∀ (bs : List Byte) (m : Msg) (rest : List Byte),
    parse bs = some (m, rest) → bs = ser m ++ rest

/-- Model of `VersionedTransaction`: the ordered signature slots followed by the
message body. -/
structure Tx (Msg : Type) where
  signatures : List (List Byte)
  message : Msg
  deriving DecidableEq

/-- bincode deserialization of a `VersionedTransaction`: compact-u16 signature
count, that many 64-byte signatures, then the message body (bincode's
`deserialize` ignores bytes trailing the parsed value). -/
def parseTx {Msg : Type} (C : MsgCodec Msg) (bs : List Byte) : Option (Tx Msg) :=
  match decodeShortU16 bs with
  | none => none
  | some (n, r1) =>
    match readSigs n r1 with
    | none => none
    | some (sigs, r2) =>
      match C.parse r2 with
      | none => none
      | some (m, _) => some ⟨sigs, m⟩

/-- bincode serialization of a `VersionedTransaction`. -/
def serTx {Msg : Type} (C : MsgCodec Msg) (tx : Tx Msg) : List Byte :=
  encodeShortU16 tx.signatures.length ++ sigBytes tx.signatures ++ C.ser tx.message

/-- The ed25519 collaborator (solana-sdk `Keypair` over ed25519-dalek):
deterministic signing with a 64-byte keypair (32-byte secret then 32-byte
public half), verification against a 32-byte public key, and the validity
check `Keypair::from_bytes` performs on the stored public-key bytes. -/
structure Ed25519 where
  sign : List Byte → List Byte → List Byte
  verify : List Byte → List Byte → List Byte → Bool
  validPk : List Byte → Bool

/-- The distinct panics of `sign_transaction` (each `expect`/`unwrap` aborts
the process; none of these is an error value returned to the caller). -/
inductive SignPanic
  /-- expect of the bs58 decode: Failed to decode base58 private key. -/
  | base58Key
  /-- expect of Keypair from_bytes: Failed to create Keypair. -/
  | keypair
  /-- expect of the base64 decode: Failed to decode base64 transaction. -/
  | base64Tx
  /-- unwrap of the bincode deserialize of the transaction. -/
  | deserializeTx
  /-- expect of the PRIVATE_KEY environment variable lookup. -/
  | envVarMissing
  deriving DecidableEq

/-- The body of `sign_transaction` once the base58 key text is in hand
(everything after the environment lookup): decode the key, build the keypair,
base64-decode the envelope, deserialize it, sign the serialized message body,
splice the signature (append when the slot list is empty, else overwrite
slot 0), re-serialize and re-encode. -/
def sign_transaction_with_key (E : Ed25519) {Msg : Type} (C : MsgCodec Msg)
    (key transaction : String) : Except SignPanic String :=
  match b58Decode key with
  | none => .error .base58Key
  | some key_bytes =>
    if key_bytes.length == 64 && E.validPk (key_bytes.drop 32) then
      match b64Decode transaction with
      | none => .error .base64Tx
      | some swap_tx_bytes =>
        match parseTx C swap_tx_bytes with
        | none => .error .deserializeTx
        | some tx =>
          let message := C.ser tx.message
          let signature := E.sign message key_bytes
          let tx' : Tx Msg :=
            if tx.signatures.isEmpty then { tx with signatures := [signature] }
            else { tx with signatures := tx.signatures.set 0 signature }
          .ok (b64Encode (serTx C tx'))
    else .error .keypair

/-- The ambient process state `sign_transaction` touches: the environment
variables and the contents of the `.env` file `dotenv()` loads. -/
structure World where
  env : List (String × String)
  dotenvFile : List (String × String)
  deriving DecidableEq

/-- Environment-variable lookup. -/
def envGet (env : List (String × String)) (k : String) : Option String :=
  match env.find? (fun p => p.1 == k) with
  | some p => some p.2
  | none => none

/-- Model of `dotenv().ok()`: set every variable of the `.env` file that is not already
present in the environment (the dotenv crate does not override existing
variables). -/
def dotenvLoad (w : World) : World :=
  { w with env := w.env ++ w.dotenvFile.filter (fun p => (envGet w.env p.1).isNone) }

/-- Observable external calls; `sign_transaction` performs none. -/
inductive NetOp
  | httpRequest (url : String)
  | rpcCall (method : String)
  deriving DecidableEq

/-- The whole of `sign_transaction`, as a state-passing function over the ambient
`World`, also returning the trace of network operations it performs: load the
`.env` file, read PRIVATE_KEY, then run the pure signing body. -/
def sign_transaction (E : Ed25519) {Msg : Type} (C : MsgCodec Msg)
    (transaction : String) (w : World) : Except SignPanic String × World × List NetOp :=
  match envGet (dotenvLoad w).env "PRIVATE_KEY" with
  | none => (.error .envVarMissing, dotenvLoad w, [])
  | some key => (sign_transaction_with_key E C key transaction, dotenvLoad w, [])

/-- Modelled from the spec: the account entry of an AbstractInstruction as the
remote API returns it, an account identifier with its declared signer and
writable flags (the declaring `AccountMeta` record of the SDK's swap types is
not under src/; the shape follows the spec's data model and the field uses in
swap_with_instructions). -/
structure ApiAccountMeta where
  pubkey : String
  is_signer : Bool
  is_writable : Bool
  deriving DecidableEq

/-- Modelled from the spec: an AbstractInstruction as the remote API returns
it, a text program identifier, ordered account list, and base64 payload (the
declaring `Instruction` record of the SDK's swap types is not under src/). -/
structure Instruction where
  program_id : String
  accounts : List ApiAccountMeta
  data : String
  deriving DecidableEq

/-- The concrete `solana_sdk` account metadata built by `parse_instruction`. -/
structure SolanaAccountMeta where
  pubkey : List Byte
  is_signer : Bool
  is_writable : Bool
  deriving DecidableEq

/-- The concrete `solana_sdk` instruction built by `parse_instruction`. -/
structure SolanaInstruction where
  program_id : List Byte
  accounts : List SolanaAccountMeta
  data : List Byte
  deriving DecidableEq

/-- The error values `parse_instruction` returns to its caller (the Rust
function returns `Result`, with a message formatted from the failing parse). -/
inductive InstrError
  /-- Invalid program_id pubkey. -/
  | invalidProgramId
  /-- Invalid account pubkey. -/
  | invalidAccountPubkey
  /-- Base64 decoding error in instruction data. -/
  | invalidData
  deriving DecidableEq

/-- The account-mapping loop of `parse_instruction`: parse each account
identifier in order, preserving the declared flags; the collected `Result`
stops at the first failure. -/
def parseAccounts : List ApiAccountMeta → Except InstrError (List SolanaAccountMeta)
  | [] => .ok []
  | a :: rest =>
    match parsePubkey a.pubkey with
    | none => .error .invalidAccountPubkey
    | some pk =>
      match parseAccounts rest with
      | .ok tl => .ok (⟨pk, a.is_signer, a.is_writable⟩ :: tl)
      | .error e => .error e

/-- Model of `parse_instruction`: parse the program identifier, map the account list,
base64-decode the payload, and build the concrete instruction. -/
def parse_instruction (instr : Instruction) : Except InstrError SolanaInstruction :=
  match parsePubkey instr.program_id with
  | none => .error .invalidProgramId
  | some pid =>
    match parseAccounts instr.accounts with
    | .error e => .error e
    | .ok accounts =>
      match b64Decode instr.data with
      | none => .error .invalidData
      | some data => .ok ⟨pid, accounts, data⟩

/-- Modelled from the spec: the instruction groups of the swap-instructions
response, in the API's declared order, plus the lookup-table address list (the
declaring `SwapInstructionsResponse` record of the SDK's swap types is not
under src/; the shape follows the spec's ordering policy and the field uses in
swap_with_instructions). -/
structure SwapInstructionsResponse where
  compute_budget_instructions : Option (List Instruction)
  setup_instructions : List Instruction
  swap_instruction : Instruction
  cleanup_instruction : Option Instruction
  other_instructions : Option (List Instruction)
  address_lookup_table_addresses : List String
  deriving DecidableEq

/-- The distinct panics of `swap_with_instructions` during assembly (each
`unwrap` aborts the process; none is an error value returned to the caller). -/
inductive AssemblePanic
  /-- unwrap of a parse_instruction result, carrying its error. -/
  | instructionUnwrap (e : InstrError)
  /-- unwrap of the lookup-table address parse. -/
  | altAddressUnwrap
  /-- unwrap of the rpc get_account call. -/
  | getAccountUnwrap
  /-- unwrap of the AddressLookupTable deserialization. -/
  | altDeserializeUnwrap
  /-- unwrap of the v0 Message try_compile. -/
  | compileUnwrap
  deriving DecidableEq

/-- Translate a group of instructions in order, aborting at the first
`parse_instruction` failure as the `.unwrap()` calls do. -/
def parseAllInstructions : List Instruction → Except AssemblePanic (List SolanaInstruction)
  | [] => .ok []
  | i :: rest =>
    match parse_instruction i with
    | .error e => .error (.instructionUnwrap e)
    | .ok si =>
      match parseAllInstructions rest with
      | .ok tl => .ok (si :: tl)
      | .error p => .error p

/-- The instruction-vector assembly of `swap_with_instructions`:
compute-budget instructions (when present), setup instructions, the swap
instruction, the cleanup instruction (when present), then the trailing other
instructions (when present), in this fixed order. -/
def buildInstructionList (r : SwapInstructionsResponse) :
    Except AssemblePanic (List SolanaInstruction) :=
  match parseAllInstructions (r.compute_budget_instructions.getD []) with
  | .error p => .error p
  | .ok cbs =>
    match parseAllInstructions r.setup_instructions with
    | .error p => .error p
    | .ok setups =>
      match parse_instruction r.swap_instruction with
      | .error e => .error (.instructionUnwrap e)
      | .ok sw =>
        match (match r.cleanup_instruction with
               | none => Except.ok []
               | some cl =>
                 match parse_instruction cl with
                 | .error e => Except.error (AssemblePanic.instructionUnwrap e)
                 | .ok si => Except.ok [si]) with
        | .error p => .error p
        | .ok cls =>
          match parseAllInstructions (r.other_instructions.getD []) with
          | .error p => .error p
          | .ok others => .ok (cbs ++ setups ++ [sw] ++ cls ++ others)

/-- A resolved `AddressLookupTableAccount`. -/
structure AddressLookupTableAccount where
  key : List Byte
  addresses : List (List Byte)
  deriving DecidableEq

/-- The lookup-table resolution loop of `swap_with_instructions`: parse each
address, fetch the account from the chain-query collaborator (`get_account`,
`none` modelling an absent or unreadable account), deserialize the table state
(an external solana-sdk format, passed in as `altDeserialize`), in order, with
each `unwrap` aborting at the first failure. -/
def resolveLookups (get_account : List Byte → Option (List Byte))
    (altDeserialize : List Byte → Option (List (List Byte))) :
    List String → Except AssemblePanic (List AddressLookupTableAccount)
  | [] => .ok []
  | addr :: rest =>
    match parsePubkey addr with
    | none => .error .altAddressUnwrap
    | some pk =>
      match get_account pk with
      | none => .error .getAccountUnwrap
      | some accountData =>
        match altDeserialize accountData with
        | none => .error .altDeserializeUnwrap
        | some addresses =>
          match resolveLookups get_account altDeserialize rest with
          | .ok tl => .ok (⟨pk, addresses⟩ :: tl)
          | .error p => .error p

/-- The compiled v0 message, keeping the compiled instruction list in the
order `try_compile` received it. -/
structure CompiledV0Message where
  payer : List Byte
  instructions : List SolanaInstruction
  lookups : List AddressLookupTableAccount
  recent_blockhash : List Byte
  deriving DecidableEq

/-- The assembly portion of `swap_with_instructions`: build the ordered
instruction vector, resolve the lookup tables through the chain-query
collaborator, and compile the v0 message (`try_compile` is the solana-sdk
collaborator, passed in as a parameter; its `unwrap` aborts on `none`). -/
def swap_with_instructions_assemble
    (get_account : List Byte → Option (List Byte))
    (altDeserialize : List Byte → Option (List (List Byte)))
    (try_compile : List Byte → List SolanaInstruction → List AddressLookupTableAccount →
      List Byte → Option CompiledV0Message)
    (r : SwapInstructionsResponse) (payer recent_blockhash : List Byte) :
    Except AssemblePanic CompiledV0Message :=
  match buildInstructionList r with
  | .error p => .error p
  | .ok ins =>
    match resolveLookups get_account altDeserialize r.address_lookup_table_addresses with
    | .error p => .error p
    | .ok luts =>
      match try_compile payer ins luts recent_blockhash with
      | none => .error .compileUnwrap
      | some m => .ok m

/-- An HTTP response at the boundary `handle_response` inspects: its status
code and its body text (`none` when reading the body fails). -/
structure HttpResponse where
  status : Nat
  body : Option String
  deriving DecidableEq

/-- Model of `StatusCode::is_success`: the 2xx range. -/
def isSuccessStatus (n : Nat) : Bool := 200 ≤ n && n ≤ 299

/-- The `JupiterClientError` variants of the SDK. -/
inductive JupiterClientError
  | requestError (msg : String)
  | headerError (msg : String)
  | apiError (body : String) (status : Nat)
  | deserializationError (msg : String)
  deriving DecidableEq

/-- Model of `handle_response`: pass a success response through unchanged; otherwise
return `ApiError` with the body text, or the fixed fallback string when the
body cannot be read. -/
def handle_response (response : HttpResponse) : Except JupiterClientError HttpResponse :=
  if isSuccessStatus response.status then .ok response
  else .error (.apiError (response.body.getD "Unable to get error details") response.status)

/-- The reqwest HTTP client, reduced to the default headers the SDK sets. -/
structure HttpClient where
  default_headers : List (String × String)
  deriving DecidableEq

/-- The SDK's client: an HTTP client plus the base URL. -/
structure JupiterClient where
  client : HttpClient
  base_url : String
  deriving DecidableEq

/-- Model of `JupiterClient::new`. -/
def JupiterClient.new (base_url : String) : JupiterClient :=
  ⟨⟨[("Accept", "application/json"), ("Content-Type", "application/json")]⟩, base_url⟩

/-- Validity per `HeaderValue::from_str`: it accepts tab and every byte at or above 32 except
DEL (non-ASCII characters encode to bytes above 127, all acceptable). -/
def validHeaderValue (s : String) : Bool :=
  s.toList.all fun c => c.toNat == 9 || (32 ≤ c.toNat && c.toNat != 127)

/-- The panic of `with_api_key` (the `unwrap` on `HeaderValue::from_str`
aborts the process). -/
inductive ClientPanic
  /-- unwrap of HeaderValue from_str on the api key. -/
  | invalidHeaderValue
  deriving DecidableEq

/-- Model of `JupiterClient::with_api_key`: build a fresh client whose default headers
are the api key header plus the two JSON headers, keeping the base URL. -/
def JupiterClient.with_api_key (self : JupiterClient) (api_key : String) :
    Except ClientPanic JupiterClient :=
  if validHeaderValue api_key then
    .ok ⟨⟨[("x-api-key", api_key), ("Accept", "application/json"),
      ("Content-Type", "application/json")]⟩, self.base_url⟩
  else .error .invalidHeaderValue

/-- A message codec for concrete instances: a message is a single byte. -/
def unitCodec : MsgCodec Byte where
  ser m := [m]
  parse bs := match bs with | [] => none | b :: rest => some (b, rest)
  parse_ser := by intro m rest; rfl
  ser_parse := by
    intro bs m rest h
    match bs with
    | [] => cases h
    | b :: tl =>
      simp only [Option.some.injEq, Prod.mk.injEq] at h
      simp [h.1, h.2]

/-- A signature scheme for concrete instances: a constant 64-byte signature
that always verifies. -/
def toyEd : Ed25519 where
  sign _ _ := List.replicate 64 (byte 0)
  verify _ _ _ := true
  validPk _ := true

/-- A 64-character base58 text of the all-zero 64-byte keypair. -/
def key64 : String := String.mk (List.replicate 64 '1')

/-- The all-zero 64-byte keypair. -/
def zeroKey : List Byte := List.replicate 64 (byte 0)

/-- A sample envelope for concrete instances: one filled signature slot and a
one-byte message body. -/
def sampleTx : Tx Byte := ⟨[List.replicate 64 (byte 7)], byte 42⟩

/-- All instructions of a response, in the order the assembly loop visits the
declared groups. -/
def responseInstructions (r : SwapInstructionsResponse) : List Instruction :=
  r.compute_budget_instructions.getD [] ++ r.setup_instructions ++ [r.swap_instruction] ++
    (match r.cleanup_instruction with | none => [] | some cl => [cl]) ++
    r.other_instructions.getD []

/-- The 32-character base58 text of the all-zero 32-byte address. -/
def pk32 : String := String.mk (List.replicate 32 '1')

/-- The all-zero 32-byte address. -/
def zero32 : List Byte := List.replicate 32 (byte 0)

/-- A compile collaborator for concrete instances: record the inputs. -/
def idCompile (p : List Byte) (ins : List SolanaInstruction)
    (ls : List AddressLookupTableAccount) (bh : List Byte) : Option CompiledV0Message :=
  some ⟨p, ins, ls, bh⟩

/-- A response for concrete instances: one instruction in each declared
group, distinguished by payload, and no lookup tables. -/
def sampleResponse : SwapInstructionsResponse :=
  ⟨some [⟨pk32, [], "AA=="⟩], [⟨pk32, [], "AQ=="⟩], ⟨pk32, [], "Ag=="⟩,
    some ⟨pk32, [], "Aw=="⟩, some [⟨pk32, [], "BA=="⟩], []⟩

/-- The compiled message `idCompile` produces for `sampleResponse`. -/
def sampleCompiled : CompiledV0Message :=
  ⟨[], [⟨zero32, [], [byte 0]⟩, ⟨zero32, [], [byte 1]⟩, ⟨zero32, [], [byte 2]⟩,
    ⟨zero32, [], [byte 3]⟩, ⟨zero32, [], [byte 4]⟩], [], []⟩

/-- A response for concrete instances whose swap instruction has a program id
outside the base58 alphabet. -/
def badResponse : SwapInstructionsResponse := ⟨none, [], ⟨"0", [], ""⟩, none, none, []⟩

/-- A response for concrete instances referencing one lookup table. -/
def lookupResponse : SwapInstructionsResponse :=
  ⟨none, [], ⟨pk32, [], ""⟩, none, none, [pk32]⟩

/-- A second 32-character base58 address, distinct from `pk32`: thirty-one
zero bytes followed by a one byte. -/
def addr2 : String := String.mk (List.replicate 31 '1' ++ ['2'])

/-- The 32-byte address `addr2` decodes to. -/
def addr2Bytes : List Byte := List.replicate 31 (byte 0) ++ [byte 1]

/-- A response for concrete instances referencing two lookup tables. -/
def lookup2Response : SwapInstructionsResponse :=
  ⟨none, [], ⟨pk32, [], ""⟩, none, none, [pk32, addr2]⟩

/-- A chain query for concrete instances that knows only the all-zero
address and reports every other account absent. -/
def oneTableQuery (pk : List Byte) : Option (List Byte) :=
  if pk = zero32 then some [] else none

theorem decB64_encB64 {v : Nat} (h : v < 64) : decB64 (encB64 v) = some v := by
  have all : ∀ w : Fin 64, decB64 (encB64 w.val) = some w.val := by decide
  exact all ⟨v, h⟩

theorem encB64_ne_pad {v : Nat} (h : v < 64) : encB64 v ≠ '=' := by
  have all : ∀ w : Fin 64, encB64 w.val ≠ '=' := by decide
  exact all ⟨v, h⟩

theorem b64_chunks_roundtrip : ∀ l : List Byte, b64DecodeChunks (b64EncodeChunks l) = some l
  | [] => rfl
  | [a] => by
    have h1 : a.val / 4 < 64 := by omega
    have h2 : a.val % 4 * 16 < 64 := by omega
    have hz : a.val % 4 * 16 % 16 = 0 := by omega
    simp only [b64EncodeChunks, b64DecodeChunks, decB64_encB64 h1, decB64_encB64 h2]
    simp [hz, byte, Fin.ext_iff] <;> omega
  | [a, b] => by
    have h1 : a.val / 4 < 64 := by omega
    have h2 : a.val % 4 * 16 + b.val / 16 < 64 := by omega
    have h3 : b.val % 16 * 4 < 64 := by omega
    have hz : b.val % 16 * 4 % 4 = 0 := by omega
    simp only [b64EncodeChunks, b64DecodeChunks, decB64_encB64 h1, decB64_encB64 h2,
      decB64_encB64 h3]
    simp [encB64_ne_pad h3, hz, byte, Fin.ext_iff] <;> omega
  | a :: b :: c :: rest => by
    have ih := b64_chunks_roundtrip rest
    have h1 : a.val / 4 < 64 := by omega
    have h2 : a.val % 4 * 16 + b.val / 16 < 64 := by omega
    have h3 : b.val % 16 * 4 + c.val / 64 < 64 := by omega
    have h4 : c.val % 64 < 64 := by omega
    simp only [b64EncodeChunks, b64DecodeChunks, decB64_encB64 h1, decB64_encB64 h2,
      decB64_encB64 h3, decB64_encB64 h4, ih]
    simp [encB64_ne_pad h3, encB64_ne_pad h4, byte, Fin.ext_iff] <;> omega

theorem b64_roundtrip (l : List Byte) : b64Decode (b64Encode l) = some l := by
  show b64DecodeChunks (String.mk (b64EncodeChunks l)).toList = some l
  exact b64_chunks_roundtrip l

theorem decodeShortU16_encode {n : Nat} (h : n ≤ 65535) (r : List Byte) :
    decodeShortU16 (encodeShortU16 n ++ r) = some (n, r) := by
  unfold encodeShortU16
  by_cases h1 : n < 128
  · have e0 : n % 256 = n := by omega
    simp [h1, decodeShortU16, byte, e0]
  · by_cases h2 : n < 16384
    · have e0 : ¬((n % 128 + 128) % 256 < 128) := by omega
      have e1 : ¬((n / 128) % 256 = 0) := by omega
      have e2 : (n / 128) % 256 < 128 := by omega
      simp [h1, h2, decodeShortU16, byte, e0, e1, e2]
      omega
    · have e0 : ¬((n % 128 + 128) % 256 < 128) := by omega
      have e1 : ¬((n / 128 % 128 + 128) % 256 = 0) := by omega
      have e2 : ¬((n / 128 % 128 + 128) % 256 < 128) := by omega
      have e3 : ¬((n / 16384) % 256 = 0 ∨ 3 < (n / 16384) % 256) := by omega
      simp [h1, h2, decodeShortU16, byte, e0, e1, e2, e3]
      omega

theorem encodeShortU16_one (b0 : Byte) (h0 : b0.val < 128) :
    encodeShortU16 b0.val = [b0] := by
  have e : byte b0.val = b0 := Fin.ext (show b0.val % 256 = b0.val by omega)
  unfold encodeShortU16
  rw [if_pos h0, e]

theorem encodeShortU16_two (b0 b1 : Byte) (h0 : ¬b0.val < 128) (h1 : ¬b1.val = 0)
    (h2 : b1.val < 128) : encodeShortU16 (b0.val % 128 + b1.val * 128) = [b0, b1] := by
  have hb0 : b0.val < 256 := b0.isLt
  have c1 : ¬(b0.val % 128 + b1.val * 128 < 128) := by omega
  have c2 : b0.val % 128 + b1.val * 128 < 16384 := by omega
  have e0 : byte ((b0.val % 128 + b1.val * 128) % 128 + 128) = b0 :=
    Fin.ext (show ((b0.val % 128 + b1.val * 128) % 128 + 128) % 256 = b0.val by omega)
  have e1 : byte ((b0.val % 128 + b1.val * 128) / 128) = b1 :=
    Fin.ext (show ((b0.val % 128 + b1.val * 128) / 128) % 256 = b1.val by omega)
  unfold encodeShortU16
  rw [if_neg c1, if_pos c2, e0, e1]

theorem encodeShortU16_three (b0 b1 b2 : Byte) (h0 : ¬b0.val < 128) (h2 : ¬b1.val < 128)
    (h3 : ¬(b2.val = 0 ∨ 3 < b2.val)) :
    encodeShortU16 (b0.val % 128 + b1.val % 128 * 128 + b2.val * 16384) = [b0, b1, b2] := by
  have hb0 : b0.val < 256 := b0.isLt
  have hb1 : b1.val < 256 := b1.isLt
  have c1 : ¬(b0.val % 128 + b1.val % 128 * 128 + b2.val * 16384 < 128) := by omega
  have c2 : ¬(b0.val % 128 + b1.val % 128 * 128 + b2.val * 16384 < 16384) := by omega
  have e0 : byte ((b0.val % 128 + b1.val % 128 * 128 + b2.val * 16384) % 128 + 128) = b0 :=
    Fin.ext (show ((b0.val % 128 + b1.val % 128 * 128 + b2.val * 16384) % 128 + 128) % 256
      = b0.val by omega)
  have e1 : byte ((b0.val % 128 + b1.val % 128 * 128 + b2.val * 16384) / 128 % 128 + 128)
      = b1 := Fin.ext (show ((b0.val % 128 + b1.val % 128 * 128 + b2.val * 16384) / 128 % 128
      + 128) % 256 = b1.val by omega)
  have e2 : byte ((b0.val % 128 + b1.val % 128 * 128 + b2.val * 16384) / 16384) = b2 :=
    Fin.ext (show ((b0.val % 128 + b1.val % 128 * 128 + b2.val * 16384) / 16384) % 256
      = b2.val by omega)
  unfold encodeShortU16
  rw [if_neg c1, if_neg c2, e0, e1, e2]

theorem decodeShortU16_spec : ∀ {bs : List Byte} {n : Nat} {r : List Byte},
    decodeShortU16 bs = some (n, r) → bs = encodeShortU16 n ++ r ∧ n ≤ 65535 := by
  intro bs n r h
  match bs with
  | [] => cases h
  | [b0] =>
    simp only [decodeShortU16] at h
    by_cases h0 : b0.val < 128
    · rw [if_pos h0] at h
      simp only [Option.some.injEq, Prod.mk.injEq] at h
      obtain ⟨rfl, rfl⟩ := h
      exact ⟨by simp [encodeShortU16_one b0 h0], by omega⟩
    · rw [if_neg h0] at h; cases h
  | [b0, b1] =>
    simp only [decodeShortU16] at h
    by_cases h0 : b0.val < 128
    · rw [if_pos h0] at h
      simp only [Option.some.injEq, Prod.mk.injEq] at h
      obtain ⟨rfl, rfl⟩ := h
      exact ⟨by simp [encodeShortU16_one b0 h0], by omega⟩
    · rw [if_neg h0] at h
      by_cases h1 : b1.val = 0
      · rw [if_pos h1] at h; cases h
      · rw [if_neg h1] at h
        by_cases h2 : b1.val < 128
        · rw [if_pos h2] at h
          simp only [Option.some.injEq, Prod.mk.injEq] at h
          obtain ⟨rfl, rfl⟩ := h
          have hb0 : b0.val < 256 := b0.isLt
          exact ⟨by simp [encodeShortU16_two b0 b1 h0 h1 h2], by omega⟩
        · rw [if_neg h2] at h; cases h
  | b0 :: b1 :: b2 :: rest2 =>
    simp only [decodeShortU16] at h
    by_cases h0 : b0.val < 128
    · rw [if_pos h0] at h
      simp only [Option.some.injEq, Prod.mk.injEq] at h
      obtain ⟨rfl, rfl⟩ := h
      exact ⟨by simp [encodeShortU16_one b0 h0], by omega⟩
    · rw [if_neg h0] at h
      by_cases h1 : b1.val = 0
      · rw [if_pos h1] at h; cases h
      · rw [if_neg h1] at h
        by_cases h2 : b1.val < 128
        · rw [if_pos h2] at h
          simp only [Option.some.injEq, Prod.mk.injEq] at h
          obtain ⟨rfl, rfl⟩ := h
          have hb0 : b0.val < 256 := b0.isLt
          exact ⟨by simp [encodeShortU16_two b0 b1 h0 h1 h2], by omega⟩
        · rw [if_neg h2] at h
          by_cases h3 : b2.val = 0 ∨ 3 < b2.val
          · rw [if_pos h3] at h; cases h
          · rw [if_neg h3] at h
            simp only [Option.some.injEq, Prod.mk.injEq] at h
            obtain ⟨rfl, rfl⟩ := h
            have hb0 : b0.val < 256 := b0.isLt
            have hb1 : b1.val < 256 := b1.isLt
            exact ⟨by simp [encodeShortU16_three b0 b1 b2 h0 h2 h3], by omega⟩

theorem readSigs_append : ∀ (sigs : List (List Byte)) (r : List Byte),
    (∀ s ∈ sigs, s.length = 64) →
    readSigs sigs.length (sigBytes sigs ++ r) = some (sigs, r)
  | [], r, _ => rfl
  | s :: rest, r, h => by
    have hs : s.length = 64 := h s (by simp)
    have hrest := readSigs_append rest r (fun x hx => h x (by simp [hx]))
    show readSigs (rest.length + 1) ((s ++ sigBytes rest) ++ r) = _
    rw [List.append_assoc]
    have hlen : 64 ≤ (s ++ (sigBytes rest ++ r)).length := by
      simp [List.length_append, hs]
    have hdrop : (s ++ (sigBytes rest ++ r)).drop 64 = sigBytes rest ++ r := by
      rw [← hs]; exact List.drop_left _ _
    have htake : (s ++ (sigBytes rest ++ r)).take 64 = s := by
      rw [← hs]; exact List.take_left _ _
    simp only [readSigs, if_pos hlen, hdrop, hrest, htake]

theorem readSigs_spec : ∀ (n : Nat) (bs : List Byte) (sigs : List (List Byte)) (r : List Byte),
    readSigs n bs = some (sigs, r) →
    bs = sigBytes sigs ++ r ∧ sigs.length = n ∧ ∀ s ∈ sigs, s.length = 64
  | 0, bs, sigs, r, h => by
    simp only [readSigs, Option.some.injEq, Prod.mk.injEq] at h
    obtain ⟨rfl, rfl⟩ := h
    exact ⟨rfl, rfl, by simp⟩
  | n + 1, bs, sigs, r, h => by
    simp only [readSigs] at h
    by_cases hlen : 64 ≤ bs.length
    · rw [if_pos hlen] at h
      cases hrec : readSigs n (bs.drop 64) with
      | none => rw [hrec] at h; cases h
      | some sr =>
        obtain ⟨sigs', rest'⟩ := sr
        rw [hrec] at h
        simp only [Option.some.injEq, Prod.mk.injEq] at h
        obtain ⟨rfl, rfl⟩ := h
        obtain ⟨hbs, hl, h64⟩ := readSigs_spec n (bs.drop 64) sigs' rest' hrec
        refine ⟨?_, by simp [hl], ?_⟩
        · conv_lhs => rw [← List.take_append_drop 64 bs]
          rw [hbs]
          simp [sigBytes]
        · intro s hs
          rcases List.mem_cons.mp hs with hmem | hmem
          · subst hmem
            simp [List.length_take]
            omega
          · exact h64 s hmem
    · rw [if_neg hlen] at h; cases h

theorem parseTx_serTx {Msg : Type} (C : MsgCodec Msg) (tx : Tx Msg)
    (h64 : ∀ s ∈ tx.signatures, s.length = 64)
    (hcnt : tx.signatures.length ≤ 65535) :
    parseTx C (serTx C tx) = some tx := by
  have hp := C.parse_ser tx.message []
  rw [List.append_nil] at hp
  simp only [parseTx, serTx, List.append_assoc, decodeShortU16_encode hcnt,
    readSigs_append tx.signatures (C.ser tx.message) h64, hp]

theorem parseTx_spec {Msg : Type} (C : MsgCodec Msg) {bs : List Byte} {tx : Tx Msg}
    (h : parseTx C bs = some tx) :
    (∀ s ∈ tx.signatures, s.length = 64) ∧ tx.signatures.length ≤ 65535 ∧
      ∃ rest, bs = encodeShortU16 tx.signatures.length ++ sigBytes tx.signatures ++
        (C.ser tx.message ++ rest) := by
  unfold parseTx at h
  cases hd : decodeShortU16 bs with
  | none => rw [hd] at h; cases h
  | some nr =>
    obtain ⟨n, r1⟩ := nr
    simp only [hd] at h
    cases hr : readSigs n r1 with
    | none => rw [hr] at h; cases h
    | some sr =>
      obtain ⟨sigs, r2⟩ := sr
      simp only [hr] at h
      cases hpm : C.parse r2 with
      | none => rw [hpm] at h; cases h
      | some mr =>
        obtain ⟨m, rest⟩ := mr
        simp only [hpm, Option.some.injEq] at h
        subst h
        obtain ⟨hbs1, hlen, h64⟩ := readSigs_spec n r1 sigs r2 hr
        obtain ⟨hbs0, hle⟩ := decodeShortU16_spec hd
        have hser := C.ser_parse r2 m rest hpm
        refine ⟨h64, show sigs.length ≤ 65535 by omega, rest, ?_⟩
        show bs = encodeShortU16 sigs.length ++ sigBytes sigs ++ (C.ser m ++ rest)
        rw [hbs0, hbs1, hser, hlen]
        simp [List.append_assoc]

/-- C1: for every valid 64-byte secret key and every base64 envelope that
decodes and deserializes to a transaction with an empty signature list,
`sign_transaction` (run with the key in hand) returns an envelope containing
exactly one signature, at slot 0, equal to the deterministic signature of the
serialized message body under that key, and verifying against the key's
public component. -/
theorem sign_empty_slot_appends_single_signature
    (E : Ed25519) {Msg : Type} (C : MsgCodec Msg) (key transaction : String)
    (key_bytes bs : List Byte) (tx : Tx Msg)
    (hk : b58Decode key = some key_bytes)
    (hlen : key_bytes.length = 64)
    (hpk : E.validPk (key_bytes.drop 32) = true)
    (hd : b64Decode transaction = some bs)
    (hp : parseTx C bs = some tx)
    (hempty : tx.signatures = [])
    (hsig : (E.sign (C.ser tx.message) key_bytes).length = 64)
    (hver : ∀ m, E.verify m (E.sign m key_bytes) (key_bytes.drop 32) = true) :
    ∃ out, sign_transaction_with_key E C key transaction = .ok out ∧
      ∃ bs', b64Decode out = some bs' ∧
        parseTx C bs' = some ⟨[E.sign (C.ser tx.message) key_bytes], tx.message⟩ ∧
        E.verify (C.ser tx.message) (E.sign (C.ser tx.message) key_bytes)
          (key_bytes.drop 32) = true := by
  have hcond : (key_bytes.length == 64 && E.validPk (key_bytes.drop 32)) = true := by
    simp [hlen, hpk]
  have htx' : parseTx C (serTx C ⟨[E.sign (C.ser tx.message) key_bytes], tx.message⟩)
      = some ⟨[E.sign (C.ser tx.message) key_bytes], tx.message⟩ := by
    apply parseTx_serTx
    · intro s hs
      have hss : s = E.sign (C.ser tx.message) key_bytes := by simpa using hs
      rw [hss]
      exact hsig
    · simp
  refine ⟨b64Encode (serTx C ⟨[E.sign (C.ser tx.message) key_bytes], tx.message⟩), ?_,
    serTx C ⟨[E.sign (C.ser tx.message) key_bytes], tx.message⟩,
    b64_roundtrip _, htx', hver _⟩
  simp only [sign_transaction_with_key, hk, hcond, hd, hp, hempty, List.isEmpty_nil,
    if_true]

/-- Witness for C1: the all-zero keypair in base58, an envelope with zero
signature slots and a one-byte message body. -/
theorem sign_empty_slot_appends_single_signature_witness :
    ∃ out, sign_transaction_with_key toyEd unitCodec key64 "ACo=" = .ok out ∧
      ∃ bs', b64Decode out = some bs' ∧
        parseTx unitCodec bs' = some ⟨[toyEd.sign (unitCodec.ser (byte 42))
          (List.replicate 64 (byte 0))], byte 42⟩ ∧
        toyEd.verify (unitCodec.ser (byte 42))
          (toyEd.sign (unitCodec.ser (byte 42)) (List.replicate 64 (byte 0)))
          ((List.replicate 64 (byte 0)).drop 32) = true :=
  sign_empty_slot_appends_single_signature toyEd unitCodec key64 "ACo="
    (List.replicate 64 (byte 0)) [byte 0, byte 42] ⟨[], byte 42⟩
    (by decide) (by decide) (by decide) (by decide) (by decide) (by decide) (by decide)
    (fun _ => rfl)

/-- C2: for every valid key and every valid envelope whose signature list is
non-empty, signing overwrites slot 0 only: the input bytes decompose as
count, slots and body, the output bytes are the same count, the same slots
with only slot 0 replaced by the new signature, and the same body bytes; the
re-parsed output keeps the slot count, the message, and every slot other
than 0 byte-for-byte. -/
theorem sign_nonempty_overwrites_slot_zero_only
    (E : Ed25519) {Msg : Type} (C : MsgCodec Msg) (key transaction : String)
    (key_bytes bs : List Byte) (tx : Tx Msg)
    (hk : b58Decode key = some key_bytes)
    (hlen : key_bytes.length = 64)
    (hpk : E.validPk (key_bytes.drop 32) = true)
    (hd : b64Decode transaction = some bs)
    (hp : parseTx C bs = some tx)
    (hne : tx.signatures ≠ [])
    (hsig : (E.sign (C.ser tx.message) key_bytes).length = 64) :
    ∃ out bs',
      sign_transaction_with_key E C key transaction = .ok out ∧
      b64Decode out = some bs' ∧
      (∃ rest, bs = encodeShortU16 tx.signatures.length ++ sigBytes tx.signatures ++
        (C.ser tx.message ++ rest)) ∧
      bs' = encodeShortU16 tx.signatures.length ++
        sigBytes (tx.signatures.set 0 (E.sign (C.ser tx.message) key_bytes)) ++
        C.ser tx.message ∧
      ∃ tx', parseTx C bs' = some tx' ∧
        tx'.message = tx.message ∧
        tx'.signatures.length = tx.signatures.length ∧
        tx'.signatures[0]? = some (E.sign (C.ser tx.message) key_bytes) ∧
        ∀ i, 0 < i → tx'.signatures[i]? = tx.signatures[i]? := by
  have hcond : (key_bytes.length == 64 && E.validPk (key_bytes.drop 32)) = true := by
    simp [hlen, hpk]
  obtain ⟨h64, hcnt, hrec⟩ := parseTx_spec C hp
  have h64' : ∀ s ∈ tx.signatures.set 0 (E.sign (C.ser tx.message) key_bytes),
      s.length = 64 := by
    intro s hs
    rcases List.mem_or_eq_of_mem_set hs with hmem | hmem
    · exact h64 s hmem
    · rw [hmem]; exact hsig
  have hcnt' : (tx.signatures.set 0 (E.sign (C.ser tx.message) key_bytes)).length
      ≤ 65535 := by simpa [List.length_set] using hcnt
  have hparse' : parseTx C
      (serTx C ⟨tx.signatures.set 0 (E.sign (C.ser tx.message) key_bytes), tx.message⟩)
      = some ⟨tx.signatures.set 0 (E.sign (C.ser tx.message) key_bytes), tx.message⟩ :=
    parseTx_serTx C _ h64' hcnt'
  have hemp : tx.signatures.isEmpty = false := by
    cases hsigs : tx.signatures with
    | nil => exact absurd hsigs hne
    | cons a l => rfl
  refine ⟨b64Encode (serTx C
      ⟨tx.signatures.set 0 (E.sign (C.ser tx.message) key_bytes), tx.message⟩),
    serTx C ⟨tx.signatures.set 0 (E.sign (C.ser tx.message) key_bytes), tx.message⟩,
    ?_, b64_roundtrip _, hrec, ?_,
    ⟨tx.signatures.set 0 (E.sign (C.ser tx.message) key_bytes), tx.message⟩,
    hparse', rfl, by simp [List.length_set], ?_, ?_⟩
  · simp [sign_transaction_with_key, hk, hcond, hd, hp, hemp]
  · show serTx C _ = _
    simp [serTx, List.length_set]
  · cases hsigs : tx.signatures with
    | nil => exact absurd hsigs hne
    | cons a l => simp [hsigs]
  · intro i hi
    cases hsigs : tx.signatures with
    | nil => exact absurd hsigs hne
    | cons a l =>
      match i, hi with
      | i + 1, _ => simp [hsigs]

/-- Witness for C2: the all-zero keypair, an envelope with one filled
signature slot and a one-byte message body. -/
theorem sign_nonempty_overwrites_slot_zero_only_witness :
    ∃ out bs',
      sign_transaction_with_key toyEd unitCodec key64
        (b64Encode (serTx unitCodec sampleTx)) = .ok out ∧
      b64Decode out = some bs' ∧
      (∃ rest, serTx unitCodec sampleTx = encodeShortU16 sampleTx.signatures.length ++
        sigBytes sampleTx.signatures ++ (unitCodec.ser sampleTx.message ++ rest)) ∧
      bs' = encodeShortU16 sampleTx.signatures.length ++
        sigBytes (sampleTx.signatures.set 0
          (toyEd.sign (unitCodec.ser sampleTx.message) zeroKey)) ++
        unitCodec.ser sampleTx.message ∧
      ∃ tx', parseTx unitCodec bs' = some tx' ∧
        tx'.message = sampleTx.message ∧
        tx'.signatures.length = sampleTx.signatures.length ∧
        tx'.signatures[0]? = some (toyEd.sign (unitCodec.ser sampleTx.message) zeroKey) ∧
        ∀ i, 0 < i → tx'.signatures[i]? = sampleTx.signatures[i]? :=
  sign_nonempty_overwrites_slot_zero_only toyEd unitCodec key64
    (b64Encode (serTx unitCodec sampleTx)) zeroKey (serTx unitCodec sampleTx) sampleTx
    (by decide) (by decide) rfl (b64_roundtrip _) (by decide) (by decide) (by decide)

/-- C4 counterexample: on malformed base64 input the call does not return an
error value to its caller — it aborts with the base64 panic (the Rust code's
expect; its own doc comment documents the panic), refuting the claim that
the sign operation returns a DecodeError value and does not crash (no such
returned error type exists in the signer; every failure is a panic). -/
theorem sign_error_return_counterexample :
    sign_transaction_with_key toyEd unitCodec key64 "%" = .error SignPanic.base64Tx := rfl

/-- C4 (amended): each failure condition is terminal and distinct — malformed
base58 key text aborts with the key-decode panic, a key that fails keypair
construction with the keypair panic, malformed base64 envelope text with the
envelope-decode panic, and undeserializable envelope bytes with the
deserialization panic; there is no retry and no suppression, but each is a
process abort (expect/unwrap), not an error value returned to the caller. -/
theorem sign_failure_conditions_panic
    (E : Ed25519) {Msg : Type} (C : MsgCodec Msg) (key transaction : String) :
    (b58Decode key = none →
      sign_transaction_with_key E C key transaction = .error .base58Key) ∧
    (∀ kb, b58Decode key = some kb →
      (kb.length == 64 && E.validPk (kb.drop 32)) = false →
      sign_transaction_with_key E C key transaction = .error .keypair) ∧
    (∀ kb, b58Decode key = some kb →
      (kb.length == 64 && E.validPk (kb.drop 32)) = true →
      b64Decode transaction = none →
      sign_transaction_with_key E C key transaction = .error .base64Tx) ∧
    (∀ kb bs, b58Decode key = some kb →
      (kb.length == 64 && E.validPk (kb.drop 32)) = true →
      b64Decode transaction = some bs → parseTx C bs = none →
      sign_transaction_with_key E C key transaction = .error .deserializeTx) := by
  refine ⟨?_, ?_, ?_, ?_⟩
  · intro h
    simp [sign_transaction_with_key, h]
  · intro kb hk hc
    simp [sign_transaction_with_key, hk, hc]
  · intro kb hk hc hd
    simp [sign_transaction_with_key, hk, hc, hd]
  · intro kb bs hk hc hd hp
    simp [sign_transaction_with_key, hk, hc, hd, hp]

/-- Witness for C4: a non-alphabet key character, a one-byte key, malformed
base64, and an envelope too short to deserialize. -/
theorem sign_failure_conditions_panic_witness :
    sign_transaction_with_key toyEd unitCodec "0" "x" = .error SignPanic.base58Key ∧
    sign_transaction_with_key toyEd unitCodec "z" "x" = .error SignPanic.keypair ∧
    sign_transaction_with_key toyEd unitCodec key64 "%%" = .error SignPanic.base64Tx ∧
    sign_transaction_with_key toyEd unitCodec key64 "" = .error SignPanic.deserializeTx :=
  ⟨(sign_failure_conditions_panic toyEd unitCodec "0" "x").1 (by decide),
   (sign_failure_conditions_panic toyEd unitCodec "z" "x").2.1 [byte 57]
     (by decide) (by decide),
   (sign_failure_conditions_panic toyEd unitCodec key64 "%%").2.2.1 zeroKey
     (by decide) (by decide) (by decide),
   (sign_failure_conditions_panic toyEd unitCodec key64 "").2.2.2 zeroKey []
     (by decide) (by decide) (by decide) (by decide)⟩

/-- C8 counterexample: an invocation of sign_transaction does mutate global
state — its dotenv call loads the .env file into the process environment;
here it sets the previously-unset PRIVATE_KEY variable, so the world after
the call differs from the world before it. -/
theorem sign_transaction_mutates_env_counterexample :
    (sign_transaction toyEd unitCodec "ACo="
      ⟨[], [("PRIVATE_KEY", "x")]⟩).2.1 ≠ (⟨[], [("PRIVATE_KEY", "x")]⟩ : World) := by
  decide

/-- C8 (amended): signing is deterministic in its declared inputs — two
invocations with the same envelope text and the same effective PRIVATE_KEY
value return the same result whatever the rest of the ambient state — and an
invocation performs no network access; the only global-state mutation is the
dotenv load of the .env file into the environment at the start of the call. -/
theorem sign_transaction_deterministic_no_network
    (E : Ed25519) {Msg : Type} (C : MsgCodec Msg) (transaction : String) (w1 w2 : World)
    (hkey : envGet (dotenvLoad w1).env "PRIVATE_KEY"
      = envGet (dotenvLoad w2).env "PRIVATE_KEY") :
    (sign_transaction E C transaction w1).1 = (sign_transaction E C transaction w2).1 ∧
    (sign_transaction E C transaction w1).2.2 = [] ∧
    (sign_transaction E C transaction w1).2.1 = dotenvLoad w1 := by
  unfold sign_transaction
  rw [hkey]
  cases envGet (dotenvLoad w2).env "PRIVATE_KEY" <;> simp

/-- Witness for C8: two worlds carrying the same key, one in the environment
and one through the .env file. -/
theorem sign_transaction_deterministic_no_network_witness :
    (sign_transaction toyEd unitCodec "ACo=" ⟨[("PRIVATE_KEY", "x")], []⟩).1
      = (sign_transaction toyEd unitCodec "ACo=" ⟨[], [("PRIVATE_KEY", "x")]⟩).1 ∧
    (sign_transaction toyEd unitCodec "ACo=" ⟨[("PRIVATE_KEY", "x")], []⟩).2.2 = [] ∧
    (sign_transaction toyEd unitCodec "ACo=" ⟨[("PRIVATE_KEY", "x")], []⟩).2.1
      = dotenvLoad ⟨[("PRIVATE_KEY", "x")], []⟩ :=
  sign_transaction_deterministic_no_network toyEd unitCodec "ACo="
    ⟨[("PRIVATE_KEY", "x")], []⟩ ⟨[], [("PRIVATE_KEY", "x")]⟩ (by decide)

theorem parseAccounts_ok : ∀ {l : List ApiAccountMeta} {ams : List SolanaAccountMeta},
    parseAccounts l = .ok ams →
    ams.length = l.length ∧ ∀ j (hj : j < l.length) (hj' : j < ams.length),
      parsePubkey (l.get ⟨j, hj⟩).pubkey = some (ams.get ⟨j, hj'⟩).pubkey ∧
      (ams.get ⟨j, hj'⟩).is_signer = (l.get ⟨j, hj⟩).is_signer ∧
      (ams.get ⟨j, hj'⟩).is_writable = (l.get ⟨j, hj⟩).is_writable := by
  intro l
  induction l with
  | nil =>
    intro ams h
    simp only [parseAccounts, Except.ok.injEq] at h
    subst h
    exact ⟨rfl, fun j hj => absurd hj (by simpa using Nat.not_lt_zero j)⟩
  | cons a rest ih =>
    intro ams h
    simp only [parseAccounts] at h
    cases hpk : parsePubkey a.pubkey with
    | none => rw [hpk] at h; cases h
    | some pk =>
      rw [hpk] at h
      cases hrec : parseAccounts rest with
      | error e => rw [hrec] at h; cases h
      | ok tl =>
        rw [hrec] at h
        simp only [Except.ok.injEq] at h
        subst h
        obtain ⟨hlen, hpt⟩ := ih hrec
        refine ⟨by simp [hlen], ?_⟩
        intro j hj hj'
        match j with
        | 0 => exact ⟨hpk, rfl, rfl⟩
        | j + 1 =>
          exact hpt j (by simpa using hj) (by simpa using hj')

/-- C5: for every AbstractInstruction whose program id parses, whose account
identifiers all parse, and whose payload is valid base64, the translation is
1:1 — the concrete instruction carries the parsed program id, an account list
of the same length and order with the signer and writable flags preserved and
each pubkey the parse of the declared identifier, and the base64 decoding of
the payload. -/
theorem parse_instruction_one_to_one (instr : Instruction)
    (pid : List Byte) (ams : List SolanaAccountMeta) (payload : List Byte)
    (hpid : parsePubkey instr.program_id = some pid)
    (hacc : parseAccounts instr.accounts = .ok ams)
    (hdata : b64Decode instr.data = some payload) :
    parse_instruction instr = .ok ⟨pid, ams, payload⟩ ∧
    ams.length = instr.accounts.length ∧
    ∀ j (hj : j < instr.accounts.length) (hj' : j < ams.length),
      parsePubkey (instr.accounts.get ⟨j, hj⟩).pubkey = some (ams.get ⟨j, hj'⟩).pubkey ∧
      (ams.get ⟨j, hj'⟩).is_signer = (instr.accounts.get ⟨j, hj⟩).is_signer ∧
      (ams.get ⟨j, hj'⟩).is_writable = (instr.accounts.get ⟨j, hj⟩).is_writable := by
  obtain ⟨hlen, hpt⟩ := parseAccounts_ok hacc
  exact ⟨by simp [parse_instruction, hpid, hacc, hdata], hlen, hpt⟩

/-- Witness for C5: one instruction with one signer account and a one-byte
payload. -/
theorem parse_instruction_one_to_one_witness :
    parse_instruction ⟨pk32, [⟨pk32, true, false⟩], "AA=="⟩
      = .ok ⟨zero32, [⟨zero32, true, false⟩], [byte 0]⟩ ∧
    ([⟨zero32, true, false⟩] : List SolanaAccountMeta).length
      = ([⟨pk32, true, false⟩] : List ApiAccountMeta).length ∧
    ∀ j (hj : j < ([⟨pk32, true, false⟩] : List ApiAccountMeta).length)
      (hj' : j < ([⟨zero32, true, false⟩] : List SolanaAccountMeta).length),
      parsePubkey (([⟨pk32, true, false⟩] : List ApiAccountMeta).get ⟨j, hj⟩).pubkey
        = some ((([⟨zero32, true, false⟩] : List SolanaAccountMeta).get ⟨j, hj'⟩).pubkey) ∧
      ((([⟨zero32, true, false⟩] : List SolanaAccountMeta).get ⟨j, hj'⟩).is_signer
        = (([⟨pk32, true, false⟩] : List ApiAccountMeta).get ⟨j, hj⟩).is_signer) ∧
      ((([⟨zero32, true, false⟩] : List SolanaAccountMeta).get ⟨j, hj'⟩).is_writable
        = (([⟨pk32, true, false⟩] : List ApiAccountMeta).get ⟨j, hj⟩).is_writable) :=
  parse_instruction_one_to_one ⟨pk32, [⟨pk32, true, false⟩], "AA=="⟩
    zero32 [⟨zero32, true, false⟩] [byte 0] (by decide) rfl (by decide)

/-- C3: given one instruction in each declared group, assembly produces a
compiled message whose instruction list is exactly compute-budget, setup,
swap, cleanup, other, in that fixed order. -/
theorem assemble_preserves_group_order
    (get_account : List Byte → Option (List Byte))
    (altDeserialize : List Byte → Option (List (List Byte)))
    (try_compile : List Byte → List SolanaInstruction → List AddressLookupTableAccount →
      List Byte → Option CompiledV0Message)
    (r : SwapInstructionsResponse) (payer recent_blockhash : List Byte)
    (cb su sw cl ot : Instruction) (cb' su' sw' cl' ot' : SolanaInstruction)
    (luts : List AddressLookupTableAccount) (m : CompiledV0Message)
    (hcb : r.compute_budget_instructions = some [cb])
    (hsu : r.setup_instructions = [su])
    (hsw : r.swap_instruction = sw)
    (hcl : r.cleanup_instruction = some cl)
    (hot : r.other_instructions = some [ot])
    (hpc : parse_instruction cb = .ok cb')
    (hps : parse_instruction su = .ok su')
    (hpw : parse_instruction sw = .ok sw')
    (hpl : parse_instruction cl = .ok cl')
    (hpo : parse_instruction ot = .ok ot')
    (hlk : resolveLookups get_account altDeserialize r.address_lookup_table_addresses
      = .ok luts)
    (hcomp : try_compile payer [cb', su', sw', cl', ot'] luts recent_blockhash = some m)
    (hpres : ∀ p ins ls bh mm, try_compile p ins ls bh = some mm → mm.instructions = ins) :
    swap_with_instructions_assemble get_account altDeserialize try_compile r payer
      recent_blockhash = .ok m ∧
    m.instructions = [cb'] ++ [su'] ++ [sw'] ++ [cl'] ++ [ot'] := by
  have hbuild : buildInstructionList r = .ok [cb', su', sw', cl', ot'] := by
    simp [buildInstructionList, hcb, hsu, hsw, hcl, hot, parseAllInstructions,
      hpc, hps, hpw, hpl, hpo]
  constructor
  · simp [swap_with_instructions_assemble, hbuild, hlk, hcomp]
  · have hm := hpres payer [cb', su', sw', cl', ot'] luts recent_blockhash m hcomp
    simp [hm]

/-- Witness for C3: one instruction per group with payloads 0 through 4; the
compiled instruction list comes out in exactly the declared group order. -/
theorem assemble_preserves_group_order_witness :
    swap_with_instructions_assemble (fun _ => none) (fun _ => none) idCompile
      sampleResponse [] [] = .ok sampleCompiled ∧
    sampleCompiled.instructions = [(⟨zero32, [], [byte 0]⟩ : SolanaInstruction)] ++
      [⟨zero32, [], [byte 1]⟩] ++ [⟨zero32, [], [byte 2]⟩] ++ [⟨zero32, [], [byte 3]⟩] ++
      [⟨zero32, [], [byte 4]⟩] :=
  assemble_preserves_group_order (fun _ => none) (fun _ => none) idCompile
    sampleResponse [] []
    ⟨pk32, [], "AA=="⟩ ⟨pk32, [], "AQ=="⟩ ⟨pk32, [], "Ag=="⟩ ⟨pk32, [], "Aw=="⟩
    ⟨pk32, [], "BA=="⟩
    ⟨zero32, [], [byte 0]⟩ ⟨zero32, [], [byte 1]⟩ ⟨zero32, [], [byte 2]⟩
    ⟨zero32, [], [byte 3]⟩ ⟨zero32, [], [byte 4]⟩ [] sampleCompiled
    rfl rfl rfl rfl rfl rfl rfl rfl rfl rfl rfl rfl
    (by intro p ins ls bh mm h; injection h with h2; subst h2; rfl)

theorem parseAllInstructions_ok_forall {l : List Instruction}
    {out : List SolanaInstruction} (h : parseAllInstructions l = .ok out) :
    ∀ i ∈ l, ∃ si, parse_instruction i = .ok si := by
  induction l generalizing out with
  | nil => intro i hi; cases hi
  | cons a rest ih =>
    intro i hi
    simp only [parseAllInstructions] at h
    cases hpa : parse_instruction a with
    | error e => rw [hpa] at h; cases h
    | ok si =>
      rw [hpa] at h
      cases hrec : parseAllInstructions rest with
      | error p => rw [hrec] at h; cases h
      | ok tl =>
        rcases List.mem_cons.mp hi with rfl | hmem
        · exact ⟨si, hpa⟩
        · exact ih hrec i hmem

theorem parseAllInstructions_error_shape : ∀ {l : List Instruction} {p : AssemblePanic},
    parseAllInstructions l = .error p → ∃ e, p = .instructionUnwrap e := by
  intro l
  induction l with
  | nil => intro p h; cases h
  | cons a rest ih =>
    intro p h
    simp only [parseAllInstructions] at h
    cases hpa : parse_instruction a with
    | error e =>
      rw [hpa] at h
      injection h with h2
      exact ⟨e, h2.symm⟩
    | ok si =>
      rw [hpa] at h
      cases hrec : parseAllInstructions rest with
      | error q =>
        rw [hrec] at h
        injection h with h2
        exact h2 ▸ ih hrec
      | ok tl => rw [hrec] at h; cases h

theorem buildInstructionList_ok_forall {r : SwapInstructionsResponse}
    {ins : List SolanaInstruction} (h : buildInstructionList r = .ok ins) :
    ∀ i ∈ responseInstructions r, ∃ si, parse_instruction i = .ok si := by
  intro i hi
  simp only [responseInstructions, List.mem_append, List.mem_singleton] at hi
  simp only [buildInstructionList] at h
  cases h1 : parseAllInstructions (r.compute_budget_instructions.getD []) with
  | error p => rw [h1] at h; cases h
  | ok cbs =>
  simp only [h1] at h
  cases h2 : parseAllInstructions r.setup_instructions with
  | error p => rw [h2] at h; cases h
  | ok setups =>
  simp only [h2] at h
  cases h3 : parse_instruction r.swap_instruction with
  | error e => rw [h3] at h; cases h
  | ok sw =>
  simp only [h3] at h
  cases h4 : r.cleanup_instruction with
  | none =>
    simp only [h4] at h
    cases h5 : parseAllInstructions (r.other_instructions.getD []) with
    | error p => rw [h5] at h; cases h
    | ok others =>
    rcases hi with ⟨⟨⟨hcb | hsu⟩ | hsw⟩ | hcl⟩ | hot
    · exact parseAllInstructions_ok_forall h1 i hcb
    · exact parseAllInstructions_ok_forall h2 i hsu
    · exact ⟨sw, by rw [hsw]; exact h3⟩
    · rw [h4] at hcl; simp at hcl
    · exact parseAllInstructions_ok_forall h5 i hot
  | some cl =>
    simp only [h4] at h
    cases h6 : parse_instruction cl with
    | error e => rw [h6] at h; cases h
    | ok si =>
    simp only [h6] at h
    cases h5 : parseAllInstructions (r.other_instructions.getD []) with
    | error p => rw [h5] at h; cases h
    | ok others =>
    rcases hi with ⟨⟨⟨hcb | hsu⟩ | hsw⟩ | hcl⟩ | hot
    · exact parseAllInstructions_ok_forall h1 i hcb
    · exact parseAllInstructions_ok_forall h2 i hsu
    · exact ⟨sw, by rw [hsw]; exact h3⟩
    · rw [h4] at hcl
      simp only [List.mem_singleton] at hcl
      exact ⟨si, by rw [hcl]; exact h6⟩
    · exact parseAllInstructions_ok_forall h5 i hot

theorem buildInstructionList_error_shape {r : SwapInstructionsResponse}
    {p : AssemblePanic} (h : buildInstructionList r = .error p) :
    ∃ e, p = .instructionUnwrap e := by
  simp only [buildInstructionList] at h
  cases h1 : parseAllInstructions (r.compute_budget_instructions.getD []) with
  | error q =>
    rw [h1] at h
    injection h with h2
    exact h2 ▸ parseAllInstructions_error_shape h1
  | ok cbs =>
  simp only [h1] at h
  cases h2 : parseAllInstructions r.setup_instructions with
  | error q =>
    rw [h2] at h
    injection h with h2e
    exact h2e ▸ parseAllInstructions_error_shape h2
  | ok setups =>
  simp only [h2] at h
  cases h3 : parse_instruction r.swap_instruction with
  | error e =>
    rw [h3] at h
    injection h with h3e
    exact ⟨e, h3e.symm⟩
  | ok sw =>
  simp only [h3] at h
  cases h4 : r.cleanup_instruction with
  | none =>
    simp only [h4] at h
    cases h5 : parseAllInstructions (r.other_instructions.getD []) with
    | error q =>
      rw [h5] at h
      injection h with h5e
      exact h5e ▸ parseAllInstructions_error_shape h5
    | ok others => rw [h5] at h; cases h
  | some cl =>
    simp only [h4] at h
    cases h6 : parse_instruction cl with
    | error e =>
      rw [h6] at h
      injection h with h6e
      exact ⟨e, h6e.symm⟩
    | ok si =>
    simp only [h6] at h
    cases h5 : parseAllInstructions (r.other_instructions.getD []) with
    | error q =>
      rw [h5] at h
      injection h with h5e
      exact h5e ▸ parseAllInstructions_error_shape h5
    | ok others => rw [h5] at h; cases h

/-- C6 counterexample: an AbstractInstruction whose program id is not a valid
address does not make the assembly return an InvalidAddress error value — the
code unwraps the parse result, so the run aborts with the unwrap panic
carrying the invalid-program-id parse failure, refuting the claim that the
assemble operation does not crash and returns the error to the caller. -/
theorem assemble_invalid_program_id_counterexample :
    swap_with_instructions_assemble (fun _ => none) (fun _ => none) idCompile
      badResponse [] []
      = .error (AssemblePanic.instructionUnwrap InstrError.invalidProgramId) := rfl

/-- C6 (amended): an AbstractInstruction with a malformed program id is
rejected by parse_instruction with the invalid-program-id error; when such an
instruction is in any of the response's groups, swap_with_instructions
unwraps the failure, so assembly aborts with an unwrap panic carrying an
instruction-parse error rather than returning it, and no compiled message is
produced. -/
theorem assemble_invalid_program_id_panics
    (get_account : List Byte → Option (List Byte))
    (altDeserialize : List Byte → Option (List (List Byte)))
    (try_compile : List Byte → List SolanaInstruction → List AddressLookupTableAccount →
      List Byte → Option CompiledV0Message)
    (r : SwapInstructionsResponse) (payer recent_blockhash : List Byte) (i : Instruction)
    (hmem : i ∈ responseInstructions r)
    (hpid : parsePubkey i.program_id = none) :
    parse_instruction i = .error .invalidProgramId ∧
    ∃ e, swap_with_instructions_assemble get_account altDeserialize try_compile r payer
      recent_blockhash = .error (.instructionUnwrap e) := by
  have hpi : parse_instruction i = .error .invalidProgramId := by
    simp [parse_instruction, hpid]
  refine ⟨hpi, ?_⟩
  cases hb : buildInstructionList r with
  | ok ins =>
    obtain ⟨si, hsi⟩ := buildInstructionList_ok_forall hb i hmem
    rw [hpi] at hsi
    cases hsi
  | error p =>
    obtain ⟨e, rfl⟩ := buildInstructionList_error_shape hb
    exact ⟨e, by simp [swap_with_instructions_assemble, hb]⟩

/-- Witness for C6: the response whose swap instruction's program id is the
non-base58 text 0. -/
theorem assemble_invalid_program_id_panics_witness :
    parse_instruction (⟨"0", [], ""⟩ : Instruction) = .error .invalidProgramId ∧
    ∃ e, swap_with_instructions_assemble (fun _ => none) (fun _ => none) idCompile
      badResponse [] [] = .error (.instructionUnwrap e) :=
  assemble_invalid_program_id_panics (fun _ => none) (fun _ => none) idCompile
    badResponse [] [] ⟨"0", [], ""⟩ (by decide) (by decide)

/-- C7 counterexample: when the chain query reports the referenced
lookup-table account as absent, assembly does not return a LookupNotFound
error value — the code unwraps the rpc result, so the run aborts with the
get-account unwrap panic, refuting the claim that the error is returned to
the caller. -/
theorem assemble_lookup_missing_counterexample :
    swap_with_instructions_assemble (fun _ => none) (fun _ => none) idCompile
      lookupResponse [] [] = .error AssemblePanic.getAccountUnwrap := rfl

theorem resolveLookups_cons_ok
    (get_account : List Byte → Option (List Byte))
    (altDeserialize : List Byte → Option (List (List Byte)))
    (x : String) (xs : List String) (luts : List AddressLookupTableAccount)
    (h : resolveLookups get_account altDeserialize (x :: xs) = .ok luts) :
    ∃ pkx acc tbl tl, parsePubkey x = some pkx ∧ get_account pkx = some acc ∧
      altDeserialize acc = some tbl ∧
      resolveLookups get_account altDeserialize xs = .ok tl := by
  simp only [resolveLookups] at h
  cases hx : parsePubkey x with
  | none => rw [hx] at h; cases h
  | some pkx =>
    simp only [hx] at h
    cases hgx : get_account pkx with
    | none => rw [hgx] at h; cases h
    | some acc =>
      simp only [hgx] at h
      cases hdx : altDeserialize acc with
      | none => rw [hdx] at h; cases h
      | some tbl =>
        simp only [hdx] at h
        cases hr : resolveLookups get_account altDeserialize xs with
        | error p => rw [hr] at h; cases h
        | ok tl => exact ⟨pkx, acc, tbl, tl, rfl, hgx, hdx, rfl⟩

theorem resolveLookups_prefix_error
    (get_account : List Byte → Option (List Byte))
    (altDeserialize : List Byte → Option (List (List Byte)))
    (a : String) (rest : List String) (pk : List Byte)
    (hpk : parsePubkey a = some pk) (hget : get_account pk = none) :
    ∀ (pre : List String) (luts : List AddressLookupTableAccount),
      resolveLookups get_account altDeserialize pre = .ok luts →
      resolveLookups get_account altDeserialize (pre ++ a :: rest)
        = .error .getAccountUnwrap := by
  intro pre
  induction pre with
  | nil =>
    intro luts _
    simp [resolveLookups, hpk, hget]
  | cons x xs ih =>
    intro luts h
    obtain ⟨pkx, acc, tbl, tl, hx, hgx, hdx, hr⟩ :=
      resolveLookups_cons_ok get_account altDeserialize x xs luts h
    have hrec := ih tl hr
    simp [List.cons_append, resolveLookups, hx, hgx, hdx, hrec]

/-- C7 (amended): when the chain-query collaborator reports any referenced
lookup-table address as nonexistent or unreadable, assembly aborts with the
get-account unwrap panic (rather than returning LookupNotFound), and no
compiled message or transaction is constructed from the instructions
processed so far. The failing reference may sit at any position: the
references before it resolve, and the loop aborts when it reaches the
missing one (a failure even earlier in the list aborts the loop sooner,
likewise producing no envelope). -/
theorem assemble_lookup_missing_panics
    (get_account : List Byte → Option (List Byte))
    (altDeserialize : List Byte → Option (List (List Byte)))
    (try_compile : List Byte → List SolanaInstruction → List AddressLookupTableAccount →
      List Byte → Option CompiledV0Message)
    (r : SwapInstructionsResponse) (payer recent_blockhash : List Byte)
    (ins : List SolanaInstruction) (pre : List String) (a : String) (rest : List String)
    (luts : List AddressLookupTableAccount) (pk : List Byte)
    (hb : buildInstructionList r = .ok ins)
    (haddr : r.address_lookup_table_addresses = pre ++ a :: rest)
    (hpre : resolveLookups get_account altDeserialize pre = .ok luts)
    (hpk : parsePubkey a = some pk)
    (hget : get_account pk = none) :
    swap_with_instructions_assemble get_account altDeserialize try_compile r payer
      recent_blockhash = .error .getAccountUnwrap := by
  have hres := resolveLookups_prefix_error get_account altDeserialize a rest pk hpk hget
    pre luts hpre
  simp [swap_with_instructions_assemble, hb, haddr, hres]

/-- Witness for C7: a valid single-instruction response referencing two
lookup tables; the chain query resolves the first reference and reports the
second absent, so the loop aborts mid-list. -/
theorem assemble_lookup_missing_panics_witness :
    swap_with_instructions_assemble oneTableQuery (fun _ => some []) idCompile
      lookup2Response [] [] = .error .getAccountUnwrap :=
  assemble_lookup_missing_panics oneTableQuery (fun _ => some []) idCompile
    lookup2Response [] [] [⟨zero32, [], []⟩] [pk32] addr2 [] [⟨zero32, []⟩] addr2Bytes
    rfl rfl rfl (by decide) (by decide)

/-- C9: handle_response returns the response unchanged exactly when the
status is a success status; otherwise it returns ApiError carrying the body
text, or the fixed fallback string when the body cannot be read, together
with the status code, and it never returns any other error variant. -/
theorem handle_response_success_iff (response : HttpResponse) :
    (isSuccessStatus response.status = true → handle_response response = .ok response) ∧
    (isSuccessStatus response.status = false → handle_response response
      = .error (.apiError (response.body.getD "Unable to get error details")
        response.status)) ∧
    (∀ r', handle_response response = .ok r' →
      r' = response ∧ isSuccessStatus response.status = true) ∧
    (∀ e, handle_response response = .error e →
      e = .apiError (response.body.getD "Unable to get error details") response.status ∧
      isSuccessStatus response.status = false) := by
  by_cases h : isSuccessStatus response.status = true
  · have hr : handle_response response = .ok response := by
      simp [handle_response, h]
    refine ⟨fun _ => hr, fun hfalse => absurd (hfalse ▸ h) (by decide), ?_, ?_⟩
    · intro r' hr'
      rw [hr] at hr'
      exact ⟨(Except.ok.inj hr').symm, h⟩
    · intro e he
      rw [hr] at he
      exact Except.noConfusion he
  · have hf : isSuccessStatus response.status = false := by simpa using h
    have hr : handle_response response
        = .error (.apiError (response.body.getD "Unable to get error details")
          response.status) := by
      simp [handle_response, hf]
    refine ⟨fun ht => absurd ht h, fun _ => hr, ?_, ?_⟩
    · intro r' hr'
      rw [hr] at hr'
      exact Except.noConfusion hr'
    · intro e he
      rw [hr] at he
      exact ⟨(Except.error.inj he).symm, hf⟩

/-- Witness for C9: a success response passed through unchanged, and a 404
with unreadable body mapped to ApiError with the fallback text. -/
theorem handle_response_success_iff_witness :
    handle_response ⟨200, some "okbody"⟩ = .ok ⟨200, some "okbody"⟩ ∧
    handle_response ⟨404, none⟩
      = .error (.apiError "Unable to get error details" 404) :=
  ⟨(handle_response_success_iff ⟨200, some "okbody"⟩).1 (by decide),
   (handle_response_success_iff ⟨404, none⟩).2.1 (by decide)⟩

/-- C10 counterexample: with_api_key applied to an API-key string that is not
a valid header value does not return a client at all — the unwrap on
HeaderValue::from_str aborts the call, refuting the claim that with_api_key
returns a base-url-preserving client for every API-key string. -/
theorem with_api_key_panics_counterexample :
    (JupiterClient.new "https://api.jup.ag").with_api_key "bad\nkey"
      = .error ClientPanic.invalidHeaderValue := rfl

/-- C10 (amended): for every API-key string that is a valid header value,
with_api_key returns a client whose base_url equals the original client's
base_url unchanged, and only the HTTP client's default headers differ (they
become the api-key header plus the two JSON headers); for other strings the
unwrap panics. -/
theorem with_api_key_preserves_base_url (c : JupiterClient) (api_key : String)
    (h : validHeaderValue api_key = true) :
    ∃ c', c.with_api_key api_key = .ok c' ∧
      c'.base_url = c.base_url ∧
      c'.client.default_headers = [("x-api-key", api_key), ("Accept", "application/json"),
        ("Content-Type", "application/json")] :=
  ⟨⟨⟨[("x-api-key", api_key), ("Accept", "application/json"),
    ("Content-Type", "application/json")]⟩, c.base_url⟩,
    by simp [JupiterClient.with_api_key, h], rfl, rfl⟩

/-- Witness for C10: a plain ASCII api key on a freshly built client. -/
theorem with_api_key_preserves_base_url_witness :
    ∃ c', (JupiterClient.new "https://lite-api.jup.ag").with_api_key "my-key" = .ok c' ∧
      c'.base_url = (JupiterClient.new "https://lite-api.jup.ag").base_url ∧
      c'.client.default_headers = [("x-api-key", "my-key"), ("Accept", "application/json"),
        ("Content-Type", "application/json")] :=
  with_api_key_preserves_base_url (JupiterClient.new "https://lite-api.jup.ag") "my-key"
    (by decide)
